import Mathlib

/-!
Verification of the geospatial filtering and aggregation engine of the
Punjab stubble-burning dashboard.

The Python source is shallowly embedded:
* pandas `DataFrame`s of fire events become `List Event`;
* raw CSV rows (before normalisation) become `RawRow`, where an `Option`
  field is `none` exactly when the pandas cell is `NaN`/`NaT`;
* float coordinates are modelled as rationals `ℚ` (the claims under
  verification do not depend on rounding);
* Python exceptions (`IndexError` on `polygon[0]` etc.) are modelled by
  `Option`/`Except`: a `none`/`.error` result marks the uncaught exception;
* pandas `groupby(sort=True)` emits groups with keys in ascending order;
  a grouped count is modelled as the ascending list of distinct keys paired
  with the size of each group;
* pandas `sort_values` with its default `quicksort` kind delegates to
  numpy's introsort, whose ordering of tied keys is unspecified once the
  array leaves the insertion-sort regime; the descending by-district sort is
  therefore not modelled, only the grouping step feeding it.
-/

namespace Stubble

/-- A calendar date as produced by `pd.to_datetime` (the fields the engine
reads: `dt.year`, `dt.month`, and the day). -/
structure CalDate where
  year : Nat
  month : Nat
  day : Nat
deriving DecidableEq, Repr

/-- One raw CSV row of the fire-event table, after cell typing but before the
normalisation pipeline of `load_fire_events`.  `date` is the result of
`pd.to_datetime(..., errors := coerce)`: `none` is `NaT` (missing or
unparseable).  `district`/`lat`/`long` are `none` when the cell is `NaN`. -/
structure RawRow where
  date : Option CalDate
  district : Option String
  lat : Option ℚ
  long : Option ℚ
deriving DecidableEq, Repr

/-- The abbreviation produced by `strftime` with the `%b` format in the C
locale, applied to the month number of a real datetime (always 1–12). -/
def monthAbbrev : Nat → String
  | 1 => "Jan" | 2 => "Feb" | 3 => "Mar" | 4 => "Apr"
  | 5 => "May" | 6 => "Jun" | 7 => "Jul" | 8 => "Aug"
  | 9 => "Sep" | 10 => "Oct" | 11 => "Nov" | 12 => "Dec"
  | _ => ""

/-- One normalised fire-event record: a row of the DataFrame returned by
`load_fire_events` (columns `date`, `district`, `lat`, `long`, `year`,
`month`, `month_name`). -/
structure Event where
  date : CalDate
  district : String
  lat : ℚ
  long : ℚ
  year : Nat
  month : Nat
  month_name : String
deriving DecidableEq, Repr

/-- `load_fire_events` (data_processor.py 32–66), one row at a time:
`fillna` of `district` with `"Unknown"`; `to_datetime` with coercion and
`dropna` on `date`; derivation of `year`, `month`, `month_name` from the
parsed date; `dropna` on `lat`/`long`.  A row survives exactly when its
date parsed and both coordinates are present; the surviving rows keep
their original order. -/
def load_fire_events (rows : List RawRow) : List Event :=
  rows.filterMap fun r =>
    match r.date, r.lat, r.long with
    | some d, some la, some lo =>
        some { date := d
               district := r.district.getD "Unknown"
               lat := la
               long := lo
               year := d.year
               month := d.month
               month_name := monthAbbrev d.month }
    | _, _, _ => none

/-- `filter_data` (data_processor.py 68–90).  Python's
`if selected_districts and len(selected_districts) > 0` is true exactly when
the argument is a non-empty list (both `None` and `[]` are falsy), so the
model takes a plain list and tests emptiness. -/
def filter_data (df : List Event) (selected_districts : List String)
    (selected_years : List Nat) : List Event :=
  let f1 := if selected_districts.isEmpty then df
            else df.filter fun e => decide (e.district ∈ selected_districts)
  if selected_years.isEmpty then f1
  else f1.filter fun e => decide (e.year ∈ selected_years)

/-- The distinct values of a list, in ascending order: the keys a pandas
`groupby(sort := True)` emits, in emission order. -/
def sortedKeys {α : Type} [LinearOrder α] (l : List α) : List α :=
  List.insertionSort (· ≤ ·) l.dedup

/-- `groupby(year).size()` as an ascending assoc list year ↦ group size
(also the insertion order of the dict `to_dict()` builds from it). -/
def yearlyGroups (df : List Event) : List (Nat × Nat) :=
  (sortedKeys (df.map (·.year))).map fun y =>
    (y, (df.filter fun e => decide (e.year = y)).length)

/-- Lexicographic order on the `(month, month_name)` group keys of
`groupby([month, month_name])`. -/
def monthKeyLe (a b : Nat × String) : Prop :=
  a.1 < b.1 ∨ (a.1 = b.1 ∧ a.2 ≤ b.2)

instance : DecidableRel monthKeyLe := fun a b =>
  inferInstanceAs (Decidable (a.1 < b.1 ∨ (a.1 = b.1 ∧ a.2 ≤ b.2)))

/-- `groupby([month, month_name]).size().reset_index(name := count)`:
rows `(month, month_name, count)` with keys ascending. -/
def monthlyGroups (df : List Event) : List (Nat × String × Nat) :=
  (List.insertionSort monthKeyLe (df.map fun e => (e.month, e.month_name)).dedup).map
    fun k => (k.1, k.2, (df.filter fun e =>
      decide (e.month = k.1 ∧ e.month_name = k.2)).length)

/-- Python's `max(l, key := count)` and pandas `idxmax`: the first element
attaining the maximum of `count` (a later element replaces the champion only
when strictly greater). -/
def firstMax {α : Type} (count : α → Nat) : List α → Option α
  | [] => none
  | x :: xs => some (xs.foldl (fun a b => if count a < count b then b else a) x)

/-- The dict returned by `get_stats`.  `peak_year` is an `Nat ⊕ String`
because the Python value is either an `int` year or the string `"N/A"`. -/
structure Stats where
  total_events : Nat
  yearly_counts : List (Nat × Nat)
  monthly_counts : List (Nat × String × Nat)
  peak_month : String
  peak_year : Nat ⊕ String
deriving DecidableEq, Repr

/-- `get_stats` (data_processor.py 149–186).  `if district:` is falsy for
`None` and for the empty string, so only a `some` non-empty district
restricts the frame.  `peak_month` is the `month_name` at `idxmax` of the
monthly counts; `peak_year` is `max(yearly_counts.items(), key := count)`
over the dict whose insertion order is ascending year; both fall back to
the `"N/A"` sentinel on an empty frame. -/
def get_stats (df : List Event) (district : Option String) : Stats :=
  let filtered := match district with
    | none => df
    | some d => if d = "" then df else df.filter fun e => decide (e.district = d)
  let yearly := yearlyGroups filtered
  let monthly := monthlyGroups filtered
  { total_events := filtered.length
    yearly_counts := yearly
    monthly_counts := monthly
    peak_month := match firstMax (fun t => t.2.2) monthly with
      | some t => t.2.1
      | none => "N/A"
    peak_year := match firstMax Prod.snd yearly with
      | some p => Sum.inl p.1
      | none => Sum.inr "N/A" }

/-- One edge step of the ray-casting loop of `point_in_polygon`
(map_handler.py 24–33): the body toggles `inside` exactly when this is
`true` for the edge `(p1, p2)` and the query point `(x, y)`. -/
def edgeToggle (x y p1x p1y p2x p2y : ℚ) : Bool :=
  decide (min p1y p2y < y) && decide (y ≤ max p1y p2y) &&
    decide (x ≤ max p1x p2x) &&
    if p1y = p2y then false
    else decide (p1x = p2x) ||
      decide (x ≤ (y - p1y) * (p2x - p1x) / (p2y - p1y) + p1x)

/-- `point_in_polygon` (map_handler.py 8–35).  The loop visits the edges
`(polygon[i], polygon[(i+1) % n])` for `i = 0 … n-1`, i.e. the pairs of
`polygon` zipped with its one-step rotation.  `polygon[0]` on an empty list
raises `IndexError`, modelled by `none`; every non-empty polygon produces
`some` of the parity of the toggle count. -/
def point_in_polygon (point : ℚ × ℚ) (polygon : List (ℚ × ℚ)) : Option Bool :=
  match polygon with
  | [] => none
  | p0 :: rest =>
      some (((p0 :: rest).zip (rest ++ [p0])).foldl
        (fun inside e =>
          if edgeToggle point.1 point.2 e.1.1 e.1.2 e.2.1 e.2.2 then !inside
          else inside)
        false)

/-- One entry of `districts_dict` as consumed by the click handler in
`app.py` (lines 232–243): a district name and the `coordinates` array of a
Polygon geometry (a list of rings, `[0]` being the outer ring). -/
structure Feature where
  district : String
  coordinates : List (List (ℚ × ℚ))
deriving DecidableEq, Repr

/-- The click handler of `app.py` (lines 232–243): walk `districts_dict` in
insertion order, `continue` on a name that is `"Unknown"` or falsy, test the
outer ring `feature[geometry][coordinates][0]` with `point_in_polygon`, and
`break` on the first hit.  `.error` marks a Python `IndexError` (empty
`coordinates`, or the empty outer ring inside `point_in_polygon`);
`.ok none` is the no-match outcome (`clicked_district` stays `None`). -/
def find_clicked_district (p : ℚ × ℚ) : List Feature → Except Unit (Option String)
  | [] => .ok none
  | f :: fs =>
      if f.district = "Unknown" ∨ f.district = "" then find_clicked_district p fs
      else
        match f.coordinates with
        | [] => .error ()
        | ring :: _ =>
            match point_in_polygon p ring with
            | none => .error ()
            | some true => .ok (some f.district)
            | some false => find_clicked_district p fs

/-- Modelled from the spec (§4.5 DistrictLocator), for comparison with
`find_clicked_district`: filter out records named `"Unknown"` or empty,
then return the name of the first record whose outer ring contains the
coordinate. -/
def locateSpec (p : ℚ × ℚ) (fs : List Feature) : Option String :=
  ((fs.filter fun f => !(f.district = "Unknown" ∨ f.district = "" : Bool)).find?
      fun f => point_in_polygon p f.coordinates.headI == some true).map
    Feature.district

/-- A GeoJSON geometry as read by `zoom_to_districts`: `coordinates` of a
`Polygon` is a list of rings; of a `MultiPolygon`, a list of polygons. -/
inductive Geometry where
  | polygon (coordinates : List (List (ℚ × ℚ)))
  | multiPolygon (coordinates : List (List (List (ℚ × ℚ))))
deriving DecidableEq, Repr

/-- One feature of the boundary GeoJSON, as read by `zoom_to_districts`. -/
structure GeoFeature where
  district : String
  geometry : Geometry
deriving DecidableEq, Repr

/-- The outcome of `zoom_to_districts` on the folium map: either the map is
returned unchanged (the two early returns) or `fit_bounds` is called with
the padded bounding box `[[minLat, minLon], [maxLat, maxLon]]`. -/
inductive ZoomOutcome where
  | unchanged
  | fitBounds (minLat maxLat minLon maxLon : ℚ)
deriving DecidableEq, Repr

/-- `polygon[0]` of each member of a MultiPolygon `coordinates` array,
concatenated (map_handler.py 214–216); `.error` is the `IndexError` on an
empty member. -/
def multiOuters : List (List (List (ℚ × ℚ))) → Except Unit (List (ℚ × ℚ))
  | [] => .ok []
  | poly :: rest =>
      match poly with
      | [] => .error ()
      | r :: _ =>
          match multiOuters rest with
          | .error e => .error e
          | .ok tail => .ok (r ++ tail)

/-- The coordinates one feature's geometry contributes to `all_coords`
(map_handler.py 211–216): the outer ring of a Polygon, or the concatenated
outer rings of a MultiPolygon; `.error` is the `IndexError` on an empty
`coordinates` array. -/
def featureCoords : Geometry → Except Unit (List (ℚ × ℚ))
  | .polygon cs =>
      match cs with
      | [] => .error ()
      | r :: _ => .ok r
  | .multiPolygon ps => multiOuters ps

/-- The `all_coords` accumulation loop of `zoom_to_districts`
(map_handler.py 207–216): every feature whose district is selected
contributes its coordinates, in feature order. -/
def collectCoords : List GeoFeature → List String → Except Unit (List (ℚ × ℚ))
  | [], _ => .ok []
  | f :: fs, sel =>
      if f.district ∈ sel then
        match featureCoords f.geometry with
        | .error e => .error e
        | .ok c =>
            match collectCoords fs sel with
            | .error e => .error e
            | .ok tail => .ok (c ++ tail)
      else collectCoords fs sel

/-- `zoom_to_districts` (map_handler.py 191–238).  An empty selection
returns the map unchanged; so does an empty `all_coords`.  Otherwise the
extrema of the collected `(lon, lat)` pairs, padded by `0.05`, are passed to
`fit_bounds`. -/
def zoom_to_districts (features : List GeoFeature) (sel : List String) :
    Except Unit ZoomOutcome :=
  if sel.isEmpty then .ok .unchanged
  else
    match collectCoords features sel with
    | .error e => .error e
    | .ok [] => .ok .unchanged
    | .ok (c :: cs) =>
        let minLat := (cs.map Prod.snd).foldl min c.2
        let maxLat := (cs.map Prod.snd).foldl max c.2
        let minLon := (cs.map Prod.fst).foldl min c.1
        let maxLon := (cs.map Prod.fst).foldl max c.1
        .ok (.fitBounds (minLat - 1/20) (maxLat + 1/20)
          (minLon - 1/20) (maxLon + 1/20))

/-- `groupby(district).size().reset_index(name := count)` inside
`create_district_bar_chart` (visualization.py 167): the `(district, count)`
rows, keys ascending (the groupby emission order). -/
def districtGroups (df : List Event) : List (String × Nat) :=
  (sortedKeys (df.map (·.district))).map fun d =>
    (d, (df.filter fun e => decide (e.district = d)).length)

/-! ## Theorems -/

/-- C2: filtering with an empty district selection and an empty year
selection is the identity: `filter_data` returns all events, the same
multiset, in the original order. -/
theorem filter_data_empty_identity (df : List Event) :
    filter_data df [] [] = df := rfl

/-- C1: when both the district selection and the year selection are
non-empty, `filter_data` returns exactly the events whose district is among
the selected districts and whose year is among the selected years — the
order-preserving subsequence of events satisfying the conjunction. -/
theorem filter_data_conjunction (df : List Event) (ds : List String)
    (ys : List Nat) (hds : ds ≠ []) (hys : ys ≠ []) :
    filter_data df ds ys
      = df.filter fun e => decide (e.district ∈ ds ∧ e.year ∈ ys) := by
  have h1 : ds.isEmpty = false := List.isEmpty_eq_false.mpr hds
  have h2 : ys.isEmpty = false := List.isEmpty_eq_false.mpr hys
  unfold filter_data
  rw [h1, h2]
  simp only [Bool.false_eq_true, if_false, List.filter_filter]
  refine List.filter_congr fun e _ => ?_
  by_cases hd : e.district ∈ ds <;> by_cases hy : e.year ∈ ys <;> simp [hd, hy]

/-- Closed witness for `filter_data_conjunction`: both hypotheses hold and
the conclusion is obtained from the theorem at a concrete input. -/
theorem filter_data_conjunction_witness :
    (["Amritsar"] ≠ ([] : List String)) ∧ ([2021] ≠ ([] : List Nat)) ∧
      filter_data [] ["Amritsar"] [2021]
        = List.filter (fun e => decide (e.district ∈ ["Amritsar"] ∧ e.year ∈ [2021])) [] :=
  ⟨by decide, by decide,
    filter_data_conjunction [] ["Amritsar"] [2021] (by decide) (by decide)⟩

/-- C3: the total event count reported by `get_stats` with no district
argument is the length of the input frame. -/
theorem get_stats_total (df : List Event) :
    (get_stats df none).total_events = df.length := rfl

/-- C4: aggregating the empty frame yields total count `0`, empty yearly and
monthly tables, and the string sentinel `"N/A"` (not a null, not an
exception) for both `peak_month` and `peak_year`. -/
theorem get_stats_empty :
    get_stats [] none
      = { total_events := 0, yearly_counts := [], monthly_counts := []
          peak_month := "N/A", peak_year := Sum.inr "N/A" } := rfl

/-- The edge-intersection abscissa computed by the ray-casting loop is
symmetric in the edge's two endpoints. -/
theorem xinters_symm {a2 b2 : ℚ} (y a1 b1 : ℚ) (h : a2 ≠ b2) :
    (y - b2) * (a1 - b1) / (a2 - b2) + b1
      = (y - a2) * (b1 - a1) / (b2 - a2) + a1 := by
  have h1 : a2 - b2 ≠ 0 := sub_ne_zero.mpr h
  have h2 : b2 - a2 ≠ 0 := sub_ne_zero.mpr (Ne.symm h)
  field_simp
  ring

/-- Reversing a (possibly zero-length) edge does not change whether it
toggles the ray-casting parity. -/
theorem edgeToggle_symm (x y a1 a2 b1 b2 : ℚ) :
    edgeToggle x y a1 a2 b1 b2 = edgeToggle x y b1 b2 a1 a2 := by
  unfold edgeToggle
  by_cases h : a2 = b2
  · subst h
    simp
  · rw [if_neg h, if_neg (Ne.symm h), min_comm b2 a2, max_comm b2 a2,
      max_comm b1 a1, xinters_symm y a1 b1 h]
    congr 2
    exact decide_eq_decide.mpr eq_comm

/-- C6 counterexample: on the empty ring `point_in_polygon` raises an
`IndexError` at `polygon[0]` (modelled `none`) instead of returning `false`;
and a ring with a zero-length edge (a duplicated vertex on a square) returns
`true` for an interior point instead of `false`. -/
theorem point_in_polygon_degenerate_cex :
    point_in_polygon (0, 0) [] = none ∧
      point_in_polygon (2, 2) [(0, 0), (0, 0), (4, 0), (4, 4), (0, 4)]
        = some true := by
  exact ⟨rfl, by decide⟩

/-- C6 as amended: a ring with exactly one or two points returns `false`
without failing (no toggle can fire on a point edge; a two-point ring's two
opposite traversals toggle identically and cancel).  The empty ring fails
with an index error rather than returning `false`, and a zero-length edge
inside a longer ring does not force a `false` result. -/
theorem point_in_polygon_short_ring (p : ℚ × ℚ) (poly : List (ℚ × ℚ))
    (h : poly.length = 1 ∨ poly.length = 2) :
    point_in_polygon p poly = some false := by
  obtain h1 | h2 := h
  · obtain ⟨a, rfl⟩ := List.length_eq_one.mp h1
    simp [point_in_polygon, edgeToggle]
  · obtain ⟨a, b, rfl⟩ := List.length_eq_two.mp h2
    have hsym := edgeToggle_symm p.1 p.2 b.1 b.2 a.1 a.2
    simp only [point_in_polygon, List.zip, List.cons_append, List.nil_append,
      List.zipWith, List.foldl]
    cases ht : edgeToggle p.1 p.2 a.1 a.2 b.1 b.2 <;>
      simp [ht, hsym, ht ▸ hsym]

/-- Closed witness for `point_in_polygon_short_ring` at a concrete
two-point ring. -/
theorem point_in_polygon_short_ring_witness :
    (([((3 : ℚ), (4 : ℚ)), (1, 2)] : List (ℚ × ℚ)).length = 1 ∨
        ([((3 : ℚ), (4 : ℚ)), (1, 2)] : List (ℚ × ℚ)).length = 2) ∧
      point_in_polygon (0, 0) [((3 : ℚ), (4 : ℚ)), (1, 2)] = some false :=
  ⟨Or.inr (by decide),
    point_in_polygon_short_ring (0, 0) [(3, 4), (1, 2)] (Or.inr (by decide))⟩

/-- C7 counterexample: with an empty selection, and with a selection
matching no feature (zero contributed coordinates), `zoom_to_districts`
returns the map unchanged via an early `return m` — it does not raise any
`EmptyGeometryError` (no such error exists in the code). -/
theorem zoom_to_districts_no_error_cex :
    zoom_to_districts [⟨"A", .polygon [[(0, 0), (1, 0), (1, 1)]]⟩] []
        = .ok .unchanged ∧
      zoom_to_districts [⟨"A", .polygon [[(0, 0), (1, 0), (1, 1)]]⟩] ["Z"]
        = .ok .unchanged := by
  exact ⟨rfl, rfl⟩

/-- C7 as amended: whenever the zoom-to-selection geometry contributes zero
coordinates (empty selection, or no selected feature contributes a
coordinate), `zoom_to_districts` leaves the current view unchanged by
returning the map as-is; no exception is raised and no `EmptyGeometryError`
is involved. -/
theorem zoom_to_districts_empty_unchanged (features : List GeoFeature)
    (sel : List String)
    (h : sel = [] ∨ collectCoords features sel = .ok []) :
    zoom_to_districts features sel = .ok .unchanged := by
  unfold zoom_to_districts
  obtain rfl | hc := h
  · rfl
  · by_cases hs : sel.isEmpty
    · rw [if_pos hs]
    · rw [if_neg hs, hc]

/-- Closed witness for `zoom_to_districts_empty_unchanged` at a concrete
feature list and the empty selection. -/
theorem zoom_to_districts_empty_unchanged_witness :
    (([] : List String) = [] ∨
        collectCoords [⟨"A", .polygon [[(0, 0), (1, 0), (1, 1)]]⟩] [] = .ok []) ∧
      zoom_to_districts [⟨"A", .polygon [[(0, 0), (1, 0), (1, 1)]]⟩] []
        = .ok .unchanged :=
  ⟨Or.inl rfl,
    zoom_to_districts_empty_unchanged [⟨"A", .polygon [[(0, 0), (1, 0), (1, 1)]]⟩]
      [] (Or.inl rfl)⟩

/-- C9: every record surviving `load_fire_events` comes from a source row
whose date parsed (`some`, i.e. a valid calendar date — unparseable rows are
dropped) and whose latitude and longitude are present; its district is the
row's district, defaulting to the sentinel `"Unknown"` when the row had
none; and its `year`, `month` and `month_name` columns are derived
deterministically from its date. -/
theorem load_fire_events_invariants (rows : List RawRow) (e : Event)
    (he : e ∈ load_fire_events rows) :
    ∃ r ∈ rows, r.date = some e.date ∧ r.lat = some e.lat ∧
      r.long = some e.long ∧ e.district = r.district.getD "Unknown" ∧
      (r.district = none → e.district = "Unknown") ∧
      e.year = e.date.year ∧ e.month = e.date.month ∧
      e.month_name = monthAbbrev e.date.month := by
  simp only [load_fire_events, List.mem_filterMap] at he
  obtain ⟨r, hr, hmk⟩ := he
  refine ⟨r, hr, ?_⟩
  cases hd : r.date with
  | none => rw [hd] at hmk; simp at hmk
  | some d =>
    cases hl : r.lat with
    | none => rw [hd, hl] at hmk; simp at hmk
    | some la =>
      cases hlo : r.long with
      | none => rw [hd, hl, hlo] at hmk; simp at hmk
      | some lo =>
        rw [hd, hl, hlo] at hmk
        simp only [Option.some.injEq] at hmk
        subst hmk
        exact ⟨rfl, rfl, rfl, rfl, fun hn => by simp [hn], rfl, rfl, rfl⟩

/-- Closed witness for `load_fire_events_invariants`: a concrete surviving
row (missing district, hence the `"Unknown"` sentinel). -/
theorem load_fire_events_invariants_witness :
    (⟨⟨2021, 10, 5⟩, "Unknown", 31, 74, 2021, 10, "Oct"⟩ : Event)
        ∈ load_fire_events [⟨some ⟨2021, 10, 5⟩, none, some 31, some 74⟩] ∧
      ∃ r ∈ ([⟨some ⟨2021, 10, 5⟩, none, some 31, some 74⟩] : List RawRow),
        r.date = some (⟨2021, 10, 5⟩ : CalDate) ∧ r.lat = some 31 ∧
          r.long = some 74 ∧ "Unknown" = r.district.getD "Unknown" ∧
          (r.district = none → "Unknown" = "Unknown") ∧
          (2021 = (2021 : Nat)) ∧ (10 = (10 : Nat)) ∧
          "Oct" = monthAbbrev 10 :=
  ⟨by decide,
    load_fire_events_invariants [⟨some ⟨2021, 10, 5⟩, none, some 31, some 74⟩]
      ⟨⟨2021, 10, 5⟩, "Unknown", 31, 74, 2021, 10, "Oct"⟩ (by decide)⟩

/-- `point_in_polygon` only fails on the empty ring: every non-empty ring
yields a boolean. -/
theorem point_in_polygon_isSome (p : ℚ × ℚ) (ring : List (ℚ × ℚ))
    (h : ring ≠ []) : ∃ b, point_in_polygon p ring = some b := by
  cases ring with
  | nil => exact absurd rfl h
  | cons q qs => exact ⟨_, rfl⟩

/-- A skipped record (name `"Unknown"` or empty) does not affect the
spec-side locator. -/
theorem locateSpec_cons_skip (p : ℚ × ℚ) (f : Feature) (fs : List Feature)
    (h : f.district = "Unknown" ∨ f.district = "") :
    locateSpec p (f :: fs) = locateSpec p fs := by
  simp only [locateSpec, List.filter_cons]
  have : (!(f.district = "Unknown" ∨ f.district = "" : Bool)) = false := by
    simp [h]
  rw [this]
  simp

/-- A valid record whose outer ring contains the point is returned by the
spec-side locator. -/
theorem locateSpec_cons_found (p : ℚ × ℚ) (f : Feature) (fs : List Feature)
    (hv : ¬(f.district = "Unknown" ∨ f.district = ""))
    (hc : point_in_polygon p f.coordinates.headI = some true) :
    locateSpec p (f :: fs) = some f.district := by
  simp only [locateSpec, List.filter_cons]
  have hb : (!(f.district = "Unknown" ∨ f.district = "" : Bool)) = true := by
    simp [hv]
  rw [hb]
  simp only [if_true]
  rw [List.find?_cons_of_pos]
  · rfl
  · simp [hc]

/-- A valid record whose outer ring does not contain the point is passed
over by the spec-side locator. -/
theorem locateSpec_cons_miss (p : ℚ × ℚ) (f : Feature) (fs : List Feature)
    (hv : ¬(f.district = "Unknown" ∨ f.district = ""))
    (hc : point_in_polygon p f.coordinates.headI = some false) :
    locateSpec p (f :: fs) = locateSpec p fs := by
  simp only [locateSpec, List.filter_cons]
  have hb : (!(f.district = "Unknown" ∨ f.district = "" : Bool)) = true := by
    simp [hv]
  rw [hb]
  simp only [if_true]
  rw [List.find?_cons_of_neg]
  simp [hc]

/-- C5: on a boundary collection whose non-skipped records all have a
non-empty outer ring, the click handler walks the records in collection
order, skips names that are `"Unknown"` or empty, returns the name of the
first record whose outer ring contains the coordinate (first-match-wins),
and returns the no-match value `none` — not an error — when no boundary
contains it.  This is stated as a refinement: the handler equals the
locator written from the spec's words. -/
theorem find_clicked_district_spec (p : ℚ × ℚ) (fs : List Feature)
    (hw : ∀ f ∈ fs, ¬(f.district = "Unknown" ∨ f.district = "") →
      f.coordinates.headI ≠ []) :
    find_clicked_district p fs = .ok (locateSpec p fs) := by
  induction fs with
  | nil => rfl
  | cons f rest ih =>
    have hwrest : ∀ g ∈ rest,
        ¬(g.district = "Unknown" ∨ g.district = "") →
          g.coordinates.headI ≠ [] :=
      fun g hg => hw g (List.mem_cons_of_mem _ hg)
    by_cases hskip : f.district = "Unknown" ∨ f.district = ""
    · rw [find_clicked_district, if_pos hskip, locateSpec_cons_skip p f rest hskip]
      exact ih hwrest
    · have hne := hw f (List.mem_cons_self _ _) hskip
      cases hcoord : f.coordinates with
      | nil =>
        exact absurd (by rw [hcoord]; rfl) hne
      | cons ring rs =>
        have hring : ring ≠ [] := by
          rw [hcoord] at hne
          simpa using hne
        obtain ⟨b, hb⟩ := point_in_polygon_isSome p ring hring
        have hb' : point_in_polygon p f.coordinates.headI = some b := by
          rw [hcoord]
          simpa using hb
        rw [find_clicked_district, if_neg hskip, hcoord]
        cases b with
        | true =>
          rw [locateSpec_cons_found p f rest hskip hb']
          simp only [hb]
        | false =>
          rw [locateSpec_cons_miss p f rest hskip hb']
          simp only [hb]
          exact ih hwrest

/-- Closed witness for `find_clicked_district_spec`: two overlapping valid
squares behind a skipped `"Unknown"` record; the point is inside both, the
first valid record wins, and the result is no error. -/
theorem find_clicked_district_spec_witness :
    (∀ f ∈ ([⟨"Unknown", [[(0, 0), (4, 0), (4, 4), (0, 4)]]⟩,
        ⟨"A", [[(0, 0), (4, 0), (4, 4), (0, 4)]]⟩,
        ⟨"B", [[(1, 1), (5, 1), (5, 5), (1, 5)]]⟩] : List Feature),
        ¬(f.district = "Unknown" ∨ f.district = "") →
          f.coordinates.headI ≠ []) ∧
      find_clicked_district (2, 2)
          [⟨"Unknown", [[(0, 0), (4, 0), (4, 4), (0, 4)]]⟩,
            ⟨"A", [[(0, 0), (4, 0), (4, 4), (0, 4)]]⟩,
            ⟨"B", [[(1, 1), (5, 1), (5, 5), (1, 5)]]⟩]
        = .ok (locateSpec (2, 2)
            [⟨"Unknown", [[(0, 0), (4, 0), (4, 4), (0, 4)]]⟩,
              ⟨"A", [[(0, 0), (4, 0), (4, 4), (0, 4)]]⟩,
              ⟨"B", [[(1, 1), (5, 1), (5, 5), (1, 5)]]⟩]) :=
  ⟨by decide,
    find_clicked_district_spec (2, 2)
      [⟨"Unknown", [[(0, 0), (4, 0), (4, 4), (0, 4)]]⟩,
        ⟨"A", [[(0, 0), (4, 0), (4, 4), (0, 4)]]⟩,
        ⟨"B", [[(1, 1), (5, 1), (5, 5), (1, 5)]]⟩] (by decide)⟩

/-- The champion of Python's `max` fold is one of the candidates. -/
theorem foldl_pymax_mem {α : Type} (count : α → Nat) :
    ∀ (xs : List α) (x : α),
      xs.foldl (fun a b => if count a < count b then b else a) x ∈ x :: xs := by
  intro xs
  induction xs with
  | nil => intro x; exact List.mem_singleton.mpr rfl
  | cons y ys ih =>
    intro x
    rw [List.foldl_cons]
    by_cases hxy : count x < count y
    · rw [if_pos hxy]
      rcases List.mem_cons.mp (ih y) with h1 | h1
      · exact List.mem_cons.mpr (Or.inr (List.mem_cons.mpr (Or.inl h1)))
      · exact List.mem_cons.mpr (Or.inr (List.mem_cons.mpr (Or.inr h1)))
    · rw [if_neg hxy]
      rcases List.mem_cons.mp (ih x) with h1 | h1
      · exact List.mem_cons.mpr (Or.inl h1)
      · exact List.mem_cons.mpr (Or.inr (List.mem_cons.mpr (Or.inr h1)))

/-- The champion of Python's `max` fold has a maximal count among all
candidates. -/
theorem foldl_pymax_ge {α : Type} (count : α → Nat) :
    ∀ (xs : List α) (x z : α), z ∈ x :: xs →
      count z ≤
        count (xs.foldl (fun a b => if count a < count b then b else a) x) := by
  intro xs
  induction xs with
  | nil =>
    intro x z hz
    rw [List.mem_singleton.mp hz]
    exact le_refl _
  | cons y ys ih =>
    intro x z hz
    rw [List.foldl_cons]
    have hstepx : count x ≤ count (if count x < count y then y else x) := by
      by_cases hxy : count x < count y
      · rw [if_pos hxy]; exact le_of_lt hxy
      · rw [if_neg hxy]
    have hstepy : count y ≤ count (if count x < count y then y else x) := by
      by_cases hxy : count x < count y
      · rw [if_pos hxy]
      · rw [if_neg hxy]; exact le_of_not_lt hxy
    have htop : count (if count x < count y then y else x) ≤
        count (ys.foldl (fun a b => if count a < count b then b else a)
          (if count x < count y then y else x)) :=
      ih _ _ (List.mem_cons_self _ _)
    rcases List.mem_cons.mp hz with h1 | h1
    · rw [h1]; exact le_trans hstepx htop
    · rcases List.mem_cons.mp h1 with h2 | h2
      · rw [h2]; exact le_trans hstepy htop
      · exact ih _ _ (List.mem_cons.mpr (Or.inr h2))

/-- Python's `max` keeps the first champion on ties: on a candidate list
whose keys are strictly increasing, any candidate tying the champion's
count has a key at least the champion's key. -/
theorem foldl_pymax_first {α : Type} (count key : α → Nat) :
    ∀ (xs : List α) (x : α),
      (x :: xs).Pairwise (fun u v => key u < key v) →
      ∀ z ∈ x :: xs,
        count z =
          count (xs.foldl (fun a b => if count a < count b then b else a) x) →
        key (xs.foldl (fun a b => if count a < count b then b else a) x)
          ≤ key z := by
  intro xs
  induction xs with
  | nil =>
    intro x _ z hz _
    rw [List.mem_singleton.mp hz]
    exact le_refl _
  | cons y ys ih =>
    intro x hp z hz hzc
    rw [List.foldl_cons] at hzc ⊢
    have hxall : ∀ w ∈ y :: ys, key x < key w := (List.pairwise_cons.mp hp).1
    have hpy : (y :: ys).Pairwise fun u v => key u < key v :=
      (List.pairwise_cons.mp hp).2
    have hpxys : (x :: ys).Pairwise fun u v => key u < key v :=
      List.pairwise_cons.mpr
        ⟨fun w hw => hxall w (List.mem_cons_of_mem _ hw),
          (List.pairwise_cons.mp hpy).2⟩
    by_cases hxy : count x < count y
    · rw [if_pos hxy] at hzc ⊢
      rcases List.mem_cons.mp hz with h1 | h1
      · exfalso
        have hylow : count y ≤
            count (ys.foldl (fun a b => if count a < count b then b else a) y) :=
          foldl_pymax_ge count ys y y (List.mem_cons_self _ _)
        have hlt : count z < count
            (ys.foldl (fun a b => if count a < count b then b else a) y) := by
          rw [h1]
          exact lt_of_lt_of_le hxy hylow
        rw [hzc] at hlt
        exact lt_irrefl _ hlt
      · exact ih y hpy z h1 hzc
    · rw [if_neg hxy] at hzc ⊢
      rcases List.mem_cons.mp hz with h1 | h1
      · rw [h1] at hzc ⊢
        exact ih x hpxys x (List.mem_cons_self _ _) hzc
      · rcases List.mem_cons.mp h1 with h2 | h2
        · have hxk : count x ≤ count
              (ys.foldl (fun a b => if count a < count b then b else a) x) :=
            foldl_pymax_ge count ys x x (List.mem_cons_self _ _)
          have hyx : count z ≤ count x := by
            rw [h2]
            exact le_of_not_lt hxy
          have hxc : count x = count
              (ys.foldl (fun a b => if count a < count b then b else a) x) :=
            le_antisymm hxk (by rw [← hzc]; exact hyx)
          have hkx : key
              (ys.foldl (fun a b => if count a < count b then b else a) x)
                ≤ key x :=
            ih x hpxys x (List.mem_cons_self _ _) hxc
          have hky : key x < key z := by
            rw [h2]
            exact hxall y (List.mem_cons_self _ _)
          exact le_of_lt (lt_of_le_of_lt hkx hky)
        · exact ih x hpxys z (List.mem_cons_of_mem _ h2) hzc

/-- The key list a `groupby` emits is strictly increasing. -/
theorem sortedKeys_pairwise_lt {α : Type} [LinearOrder α] (l : List α) :
    (sortedKeys l).Pairwise (· < ·) := by
  have hs : (sortedKeys l).Pairwise (· ≤ ·) :=
    List.sorted_insertionSort (· ≤ ·) l.dedup
  have hn : (sortedKeys l).Nodup :=
    ((List.perm_insertionSort (· ≤ ·) l.dedup).symm.nodup (l.nodup_dedup))
  exact (hs.and hn).imp fun h => lt_of_le_of_ne h.1 h.2

/-- The yearly group table carries strictly increasing years. -/
theorem yearlyGroups_pairwise (df : List Event) :
    (yearlyGroups df).Pairwise fun u v => u.1 < v.1 := by
  unfold yearlyGroups
  rw [List.pairwise_map]
  exact sortedKeys_pairwise_lt (df.map (·.year))

/-- A non-empty frame has a non-empty yearly group table. -/
theorem yearlyGroups_ne_nil (df : List Event) (h : df ≠ []) :
    yearlyGroups df ≠ [] := by
  intro hnil
  apply h
  unfold yearlyGroups at hnil
  have h1 : sortedKeys (df.map (·.year)) = [] := by
    cases hk : sortedKeys (df.map (·.year)) with
    | nil => rfl
    | cons a l => rw [hk] at hnil; simp at hnil
  have h2 : (df.map (·.year)).dedup = [] := by
    have hlen := congrArg List.length h1
    rw [sortedKeys, List.length_insertionSort] at hlen
    exact List.length_eq_zero.mp hlen
  have h3 : df.map (·.year) = [] := (List.dedup_eq_nil _).mp h2
  exact List.map_eq_nil_iff.mp h3

/-- C10: on a non-empty frame, `get_stats` reports as `peak_year` an actual
year of the data achieving the maximum yearly count, and among the years
tying that maximum it is the smallest — the groupby emits years ascending
and Python's `max` returns the first maximal entry. -/
theorem peak_year_smallest_argmax (df : List Event) (h : df ≠ []) :
    ∃ y c, (get_stats df none).peak_year = Sum.inl y ∧
      (y, c) ∈ yearlyGroups df ∧
      (∀ q ∈ yearlyGroups df, q.2 ≤ c) ∧
      (∀ q ∈ yearlyGroups df, q.2 = c → y ≤ q.1) := by
  obtain ⟨g, gs, hg⟩ : ∃ g gs, yearlyGroups df = g :: gs := by
    cases hyl : yearlyGroups df with
    | nil => exact absurd hyl (yearlyGroups_ne_nil df h)
    | cons g gs => exact ⟨g, gs, rfl⟩
  refine ⟨(gs.foldl (fun a b => if a.2 < b.2 then b else a) g).1,
    (gs.foldl (fun a b => if a.2 < b.2 then b else a) g).2, ?_, ?_, ?_, ?_⟩
  · show (match firstMax Prod.snd (yearlyGroups df) with
      | some p => Sum.inl p.1
      | none => Sum.inr "N/A") = _
    rw [hg]
    rfl
  · rw [hg]
    exact foldl_pymax_mem Prod.snd gs g
  · rw [hg]
    exact fun q hq => foldl_pymax_ge Prod.snd gs g q hq
  · rw [hg]
    have hp : (g :: gs).Pairwise fun u v => u.1 < v.1 := by
      rw [← hg]
      exact yearlyGroups_pairwise df
    exact fun q hq hqc => foldl_pymax_first Prod.snd Prod.fst gs g hp q hq hqc

/-- Closed witness for `peak_year_smallest_argmax`: two years tie at one
event each; the reported peak year is the smaller one, 2021. -/
theorem peak_year_smallest_argmax_witness :
    ([⟨⟨2021, 10, 5⟩, "Amritsar", 1, 2, 2021, 10, "Oct"⟩,
        ⟨⟨2022, 11, 6⟩, "Amritsar", 1, 2, 2022, 11, "Nov"⟩] : List Event) ≠ [] ∧
      (∃ y c,
        (get_stats
            [⟨⟨2021, 10, 5⟩, "Amritsar", 1, 2, 2021, 10, "Oct"⟩,
              ⟨⟨2022, 11, 6⟩, "Amritsar", 1, 2, 2022, 11, "Nov"⟩]
            none).peak_year = Sum.inl y ∧
          (y, c) ∈ yearlyGroups
            [⟨⟨2021, 10, 5⟩, "Amritsar", 1, 2, 2021, 10, "Oct"⟩,
              ⟨⟨2022, 11, 6⟩, "Amritsar", 1, 2, 2022, 11, "Nov"⟩] ∧
          (∀ q ∈ yearlyGroups
              [⟨⟨2021, 10, 5⟩, "Amritsar", 1, 2, 2021, 10, "Oct"⟩,
                ⟨⟨2022, 11, 6⟩, "Amritsar", 1, 2, 2022, 11, "Nov"⟩],
            q.2 ≤ c) ∧
          (∀ q ∈ yearlyGroups
              [⟨⟨2021, 10, 5⟩, "Amritsar", 1, 2, 2021, 10, "Oct"⟩,
                ⟨⟨2022, 11, 6⟩, "Amritsar", 1, 2, 2022, 11, "Nov"⟩],
            q.2 = c → y ≤ q.1)) :=
  ⟨by decide,
    peak_year_smallest_argmax
      [⟨⟨2021, 10, 5⟩, "Amritsar", 1, 2, 2021, 10, "Oct"⟩,
        ⟨⟨2022, 11, 6⟩, "Amritsar", 1, 2, 2022, 11, "Nov"⟩] (by decide)⟩

end Stubble
